import Mathlib

/-!
# The `performance-eigenHasOperatorNew` clang-tidy check

A shallow embedding of
`clang-tools-extra/clang-tidy/performance/EigenhasoperatornewCheck.cpp`:
the matcher registered by `registerMatchers`, the callback `check`, and the
traversal that runs the one on the other, followed by the properties of the
rule.
-/

namespace EigenHasOperatorNew

/-! ## Data model -/

/-- The node classes the rule tells apart; every other class of AST node is `other`. -/
inductive NodeKind where
  | cxxRecordDecl
  | fieldDecl
  | cxxMethodDecl
  | other
  deriving DecidableEq, Repr

/-- A source location, in its raw encoding. -/
abbrev SourceLocation := Nat

/-- An AST node: `addr` is the node's address (what a `const Decl *` holds),
`name` its declared name, `type` its declared type printed as a string,
`location` what `getLocation()` returns, `inMainFile` whether the node's
expansion location lies in the primary input file, `children` the nodes
directly below it, in source order. -/
inductive Node where
  | mk (addr : Nat) (kind : NodeKind) (name : String) (type : String)
      (location : SourceLocation) (inMainFile : Bool) (children : List Node)

namespace Node

def addr : Node → Nat
  | mk a _ _ _ _ _ _ => a

def kind : Node → NodeKind
  | mk _ k _ _ _ _ _ => k

def name : Node → String
  | mk _ _ s _ _ _ _ => s

def type : Node → String
  | mk _ _ _ t _ _ _ => t

def location : Node → SourceLocation
  | mk _ _ _ _ l _ _ => l

def inMainFile : Node → Bool
  | mk _ _ _ _ _ m _ => m

def children : Node → List Node
  | mk _ _ _ _ _ _ cs => cs

end Node

mutual
/-- The proper descendants of a node, depth first, in source order. -/
def Node.descendants : Node → List Node
  | .mk _ _ _ _ _ _ cs => descendantsList cs
/-- The nodes of a forest, depth first, in source order. -/
def descendantsList : List Node → List Node
  | [] => []
  | c :: cs => c :: (c.descendants ++ descendantsList cs)
end

/-- The nodes of the tree rooted at a node, the root first. -/
def Node.nodes (root : Node) : List Node :=
  root :: root.descendants

/-- The bound nodes of one match: the names bound so far, the latest first. -/
abbrev BoundNodes := List (String × Node)

/-- Modelled from the spec: `BoundNodes::getNodeAs<T>(ID)` of the matcher
library, which is not part of the sources at hand. The Binding Set maps the
names a match captured to the captured nodes; the result is a pointer, null
(here `none`) when `ID` is not captured or is captured for a node of another
class. `check` tests the pointers it gets for null. -/
def getNodeAs (T : NodeKind) (Nodes : BoundNodes) (ID : String) : Option Node :=
  match Nodes.lookup ID with
  | some n => if n.kind = T then some n else none
  | none => none

/-- A diagnostic: where it is anchored, its message, and the address of the
declaration streamed into it. -/
structure Diagnostic where
  location : SourceLocation
  message : String
  arg : Nat
  deriving DecidableEq, Repr

/-! ## Matchers -/

/-- The matcher expressions `registerMatchers` builds. A node matcher with
two arguments, `cxxRecordDecl(a, b)`, is `cxxRecordDecl (allOf a b)`;
`hasType(asString(s))` is `hasTypeAsString s`. -/
inductive Matcher where
  | cxxRecordDecl (inner : Matcher)
  | cxxMethodDecl (inner : Matcher)
  | fieldDecl (inner : Matcher)
  | hasName (s : String)
  | hasTypeAsString (s : String)
  | isExpansionInMainFile
  | anyOf (p q : Matcher)
  | allOf (p q : Matcher)
  | hasDescendant (p : Matcher)
  | bind (ID : String) (p : Matcher)

/-- Modelled from the spec: the matcher combinators of the matcher library
(`anyOf`, `allOf`, `hasDescendant`, `bind`, the node and narrowing matchers),
which are not part of the sources at hand. `matches m n b` is `some b2` when
`m` matches node `n` starting from bindings `b`, `b2` being `b` with what the
match captured; `none` when it fails, and then nothing is captured.
`anyOf` stops at its first disjunct that matches, `allOf` wants all on the
same node, `hasDescendant` searches the proper descendants and keeps the
first that matches, `bind` records the matched node on success only. -/
def Matcher.matches : Matcher → Node → BoundNodes → Option BoundNodes
  | .cxxRecordDecl inner, n, b =>
      if n.kind = NodeKind.cxxRecordDecl then inner.matches n b else none
  | .cxxMethodDecl inner, n, b =>
      if n.kind = NodeKind.cxxMethodDecl then inner.matches n b else none
  | .fieldDecl inner, n, b =>
      if n.kind = NodeKind.fieldDecl then inner.matches n b else none
  | .hasName s, n, b => if n.name = s then some b else none
  | .hasTypeAsString s, n, b => if n.type = s then some b else none
  | .isExpansionInMainFile, n, b => if n.inMainFile then some b else none
  | .anyOf p q, n, b =>
      match p.matches n b with
      | some b2 => some b2
      | none => q.matches n b
  | .allOf p q, n, b =>
      match p.matches n b with
      | some b2 => q.matches n b2
      | none => none
  | .hasDescendant p, n, b => n.descendants.findSome? (fun d => p.matches d b)
  | .bind ID p, n, b =>
      match p.matches n b with
      | some b2 => some ((ID, n) :: b2)
      | none => none

/-! ## The rule -/

/-- Line 22: `cxxMethodDecl(hasName("operator new")).bind("noopnew")`. -/
def opnewDecl : Matcher :=
  .bind "noopnew" (.cxxMethodDecl (.hasName "operator new"))

def eigenmxxfDecl : Matcher := .hasTypeAsString "Eigen::MatrixXf"
def eigenmx3fDecl : Matcher := .hasTypeAsString "Eigen::Matrix3f"
def eigenmx2fDecl : Matcher := .hasTypeAsString "Eigen::Matrix2f"
def eigenmx4fDecl : Matcher := .hasTypeAsString "Eigen::Matrix4f"

def eigenmx2dDecl : Matcher := .hasTypeAsString "Eigen::Matrix2d"
def eigenmx3dDecl : Matcher := .hasTypeAsString "Eigen::Matrix3d"
def eigenmx4dDecl : Matcher := .hasTypeAsString "Eigen::Matrix4d"
def eigenmxxdDecl : Matcher := .hasTypeAsString "Eigen::MatrixXd"

def eigenv2fDecl : Matcher := .hasTypeAsString "Eigen::Vector2f"
def eigenv3fDecl : Matcher := .hasTypeAsString "Eigen::Vector3f"
def eigenv4fDecl : Matcher := .hasTypeAsString "Eigen::Vector4f"
def eigenvxfDecl : Matcher := .hasTypeAsString "Eigen::VectorXf"

def eigenv2dDecl : Matcher := .hasTypeAsString "Eigen::Vector2d"
def eigenv3dDecl : Matcher := .hasTypeAsString "Eigen::Vector3d"
def eigenv4dDecl : Matcher := .hasTypeAsString "Eigen::Vector4d"
def eigenvxdDecl : Matcher := .hasTypeAsString "Eigen::VectorXd"

/-- The matcher `registerMatchers` adds to the finder (line 44), with `check`
as its callback. -/
def registerMatchers : Matcher :=
  .bind "cls"
    (.cxxRecordDecl
      (.allOf .isExpansionInMainFile
        (.anyOf (.hasDescendant opnewDecl)
          (.hasDescendant
            (.bind "eigen" (.fieldDecl (.anyOf eigenmxxfDecl eigenmx3fDecl)))))))

/-- The callback `check` (lines 48-58). The result is the list of diagnostics
it emits, or `none` when it dereferences a null pointer: `objDecl` is
dereferenced without a test. -/
def check (Result : BoundNodes) : Option (List Diagnostic) :=
  let opnewDecl := getNodeAs NodeKind.cxxMethodDecl Result "noopnew"
  let eigenDecl := getNodeAs NodeKind.fieldDecl Result "eigen"
  if eigenDecl.isSome && !opnewDecl.isSome then
    match getNodeAs NodeKind.cxxRecordDecl Result "cls" with
    | some objDecl => some [⟨objDecl.location, "class test----fail", objDecl.addr⟩]
    | none => none
  else
    some []

/-- Modelled from the spec: what the traversal engine (`MatchFinder`, not part
of the sources at hand) does at one node: it evaluates the registered root
matcher on the node, starting from no bindings, and on success invokes the
callback once, with the bindings captured. -/
def visit (n : Node) : Option (List Diagnostic) :=
  match registerMatchers.matches n [] with
  | some Result => check Result
  | none => some []

/-- The visits of a sequence of nodes, one after the other; the diagnostics
come out in the order of the visits. -/
def runVisits : List Node → Option (List Diagnostic)
  | [] => some []
  | n :: ns =>
      match visit n with
      | none => none
      | some ds =>
          match runVisits ns with
          | none => none
          | some rest => some (ds ++ rest)

/-- Modelled from the spec: `MatchFinder::matchAST`, not part of the sources
at hand: one depth-first pass over the AST that visits every node once, in
source order. -/
def matchAST (root : Node) : Option (List Diagnostic) :=
  runVisits root.nodes

/-! ## Programs used as examples -/

/-- A member field `type m;` of the main file. -/
def field (addr : Nat) (type : String) (loc : SourceLocation) : Node :=
  .mk addr NodeKind.fieldDecl "m" type loc true []

/-- The method `void *operator new(size_t);`. -/
def methodNew (addr : Nat) (loc : SourceLocation) : Node :=
  .mk addr NodeKind.cxxMethodDecl "operator new" "void *(size_t)" loc true []

/-- A record declaration of the main file. -/
def record (addr : Nat) (name : String) (loc : SourceLocation) (members : List Node) : Node :=
  .mk addr NodeKind.cxxRecordDecl name "" loc true members

/-- A translation unit of the main file. -/
def translationUnit (decls : List Node) : Node :=
  .mk 0 NodeKind.other "" "" 0 true decls

/-- The declaration `struct S { type m; };`. -/
def singleFieldStruct (type : String) : Node :=
  record 1 "S" 10 [field 2 type 20]

/-- The program `struct S { type m; };`. -/
def singleFieldProgram (type : String) : Node :=
  translationUnit [singleFieldStruct type]

/-- Scenario A: `struct S { Eigen::Matrix3f m; };`. -/
def structA : Node := singleFieldStruct "Eigen::Matrix3f"

def scenarioA : Node := translationUnit [structA]

/-- Scenario B: `struct S { Eigen::Matrix3f m; void *operator new(size_t); };`. -/
def structB : Node :=
  record 1 "S" 10 [field 2 "Eigen::Matrix3f" 20, methodNew 3 30]

def scenarioB : Node := translationUnit [structB]

/-- Scenario C: `struct S { int x; };`. -/
def structC : Node :=
  record 1 "S" 10 [.mk 2 NodeKind.fieldDecl "x" "int" 20 true []]

def scenarioC : Node := translationUnit [structC]

/-- Scenario D, the inner declaration: `struct Inner { type m; };`. -/
def innerD (type : String) : Node :=
  record 2 "Inner" 20 [field 3 type 30]

/-- Scenario D, the outer declaration:
`struct Outer { struct Inner { type m; }; };`. -/
def outerD (type : String) : Node :=
  record 1 "Outer" 10 [innerD type]

def scenarioD (type : String) : Node := translationUnit [outerD type]

/-- The declaration
`struct Outer { Eigen::Matrix3f m; struct Inner { void *operator new(size_t); }; };`. -/
def outerNestedNew : Node :=
  record 1 "Outer" 10
    [field 2 "Eigen::Matrix3f" 20, record 3 "Inner" 30 [methodNew 4 40]]

def nestedNewProgram : Node := translationUnit [outerNestedNew]

/-- The declaration `struct S { Eigen::Matrix3f a; Eigen::MatrixXf b; };`
around a nested `struct T { Eigen::Matrix3f c; };`. -/
def structManyFields : Node :=
  record 1 "S" 10
    [field 2 "Eigen::Matrix3f" 20, field 3 "Eigen::MatrixXf" 30,
     record 4 "T" 40 [field 5 "Eigen::Matrix3f" 50]]

def manyFieldsProgram : Node := translationUnit [structManyFields]

/-! ## Vocabulary of the properties -/

/-- The sixteen type names of lines 23-41. -/
def alignmentSensitiveTypeNames : List String :=
  ["Eigen::MatrixXf", "Eigen::Matrix3f", "Eigen::Matrix2f", "Eigen::Matrix4f",
   "Eigen::Matrix2d", "Eigen::Matrix3d", "Eigen::Matrix4d", "Eigen::MatrixXd",
   "Eigen::Vector2f", "Eigen::Vector3f", "Eigen::Vector4f", "Eigen::VectorXf",
   "Eigen::Vector2d", "Eigen::Vector3d", "Eigen::Vector4d", "Eigen::VectorXd"]

/-- The two type names the registered matcher tests (line 44). -/
def testedTypeNames : List String :=
  ["Eigen::MatrixXf", "Eigen::Matrix3f"]

/-- A method named `operator new`. -/
def IsOperatorNew (x : Node) : Prop :=
  x.kind = NodeKind.cxxMethodDecl ∧ x.name = "operator new"

instance : DecidablePred IsOperatorNew := fun x => by
  unfold IsOperatorNew; infer_instance

/-- A field whose type string is one of `names`. -/
def IsFieldOf (names : List String) (x : Node) : Prop :=
  x.kind = NodeKind.fieldDecl ∧ x.type ∈ names

instance (names : List String) : DecidablePred (IsFieldOf names) := fun x => by
  unfold IsFieldOf; infer_instance

/-- The addresses of the nodes of an AST are pairwise distinct. -/
def DistinctAddrs (root : Node) : Prop :=
  (root.nodes.map Node.addr).Nodup

instance (root : Node) : Decidable (DistinctAddrs root) := by
  unfold DistinctAddrs; infer_instance

/-- The diagnostics of a run that report declaration `D`. -/
def diagnosticsFor (D : Node) (ds : List Diagnostic) : List Diagnostic :=
  ds.filter (fun d => d.arg = D.addr)

/-- The diagnostic `check` emits for declaration `D`. -/
def diagAt (D : Node) : Diagnostic :=
  ⟨D.location, "class test----fail", D.addr⟩

/-- What line 44 asks of a node. -/
def Offending (n : Node) : Prop :=
  n.kind = NodeKind.cxxRecordDecl ∧ n.inMainFile = true ∧
    (∀ x ∈ n.descendants, ¬ IsOperatorNew x) ∧
    (∃ x ∈ n.descendants, IsFieldOf testedTypeNames x)

instance : DecidablePred Offending := fun n => by
  unfold Offending; infer_instance

/-- The diagnostics of the visit of one node. -/
def report (n : Node) : List Diagnostic :=
  if Offending n then [diagAt n] else []

/-! ## The matcher, step by step -/

theorem findSome?_ite {α β : Type} (P : α → Prop) [DecidablePred P] (g : α → β)
    (l : List α) :
    l.findSome? (fun d => if P d then some (g d) else none)
      = (l.find? (fun d => decide (P d))).map g := by
  induction l with
  | nil => rfl
  | cons a l ih =>
    by_cases h : P a
    · simp [List.findSome?, List.find?, h]
    · simp [List.findSome?, List.find?, h, ih]

theorem opnewDecl_matches (d : Node) (b : BoundNodes) :
    opnewDecl.matches d b
      = if IsOperatorNew d then some (("noopnew", d) :: b) else none := by
  unfold IsOperatorNew
  by_cases hk : d.kind = NodeKind.cxxMethodDecl <;>
    by_cases hn : d.name = "operator new" <;>
    simp [opnewDecl, Matcher.matches, hk, hn]

theorem eigenField_matches (d : Node) (b : BoundNodes) :
    (Matcher.bind "eigen"
        (Matcher.fieldDecl (Matcher.anyOf eigenmxxfDecl eigenmx3fDecl))).matches d b
      = if IsFieldOf testedTypeNames d then some (("eigen", d) :: b) else none := by
  unfold IsFieldOf testedTypeNames
  by_cases hk : d.kind = NodeKind.fieldDecl <;>
    by_cases h1 : d.type = "Eigen::MatrixXf" <;>
    by_cases h2 : d.type = "Eigen::Matrix3f" <;>
    simp [eigenmxxfDecl, eigenmx3fDecl, Matcher.matches, hk, h1, h2]

/-- The outcome of the registered matcher at a node, in closed form. -/
theorem registerMatchers_matches (n : Node) :
    registerMatchers.matches n []
      = if n.kind = NodeKind.cxxRecordDecl ∧ n.inMainFile = true then
          match n.descendants.find? (fun d => decide (IsOperatorNew d)) with
          | some m => some [("cls", n), ("noopnew", m)]
          | none =>
              match n.descendants.find? (fun d => decide (IsFieldOf testedTypeNames d)) with
              | some f => some [("cls", n), ("eigen", f)]
              | none => none
        else none := by
  have e1 : (Matcher.hasDescendant opnewDecl).matches n []
      = (n.descendants.find? (fun d => decide (IsOperatorNew d))).map
          (fun d => [("noopnew", d)]) := by
    show n.descendants.findSome? (fun d => opnewDecl.matches d []) = _
    simp only [opnewDecl_matches]
    exact findSome?_ite IsOperatorNew (fun d => [("noopnew", d)]) _
  have e2 : (Matcher.hasDescendant (Matcher.bind "eigen"
        (Matcher.fieldDecl (Matcher.anyOf eigenmxxfDecl eigenmx3fDecl)))).matches n []
      = (n.descendants.find? (fun d => decide (IsFieldOf testedTypeNames d))).map
          (fun d => [("eigen", d)]) := by
    show n.descendants.findSome? (fun d => (Matcher.bind "eigen"
        (Matcher.fieldDecl (Matcher.anyOf eigenmxxfDecl eigenmx3fDecl))).matches d []) = _
    simp only [eigenField_matches]
    exact findSome?_ite (IsFieldOf testedTypeNames) (fun d => [("eigen", d)]) _
  by_cases hk : n.kind = NodeKind.cxxRecordDecl
  · by_cases hm : n.inMainFile = true
    · have e3 : registerMatchers.matches n []
          = match (match (Matcher.hasDescendant opnewDecl).matches n [] with
              | some b2 => some b2
              | none => (Matcher.hasDescendant (Matcher.bind "eigen"
                  (Matcher.fieldDecl
                    (Matcher.anyOf eigenmxxfDecl eigenmx3fDecl)))).matches n []) with
            | some b2 => some (("cls", n) :: b2)
            | none => none := by
        show (match (if n.kind = NodeKind.cxxRecordDecl then
                (match (if n.inMainFile then some ([] : BoundNodes) else none) with
                  | some b2 => (match (Matcher.hasDescendant opnewDecl).matches n b2 with
                      | some b3 => some b3
                      | none => (Matcher.hasDescendant (Matcher.bind "eigen"
                          (Matcher.fieldDecl
                            (Matcher.anyOf eigenmxxfDecl eigenmx3fDecl)))).matches n b2)
                  | none => none)
                else none) with
              | some b2 => some (("cls", n) :: b2)
              | none => none) = _
        simp only [hk, hm, if_true]
      rw [e3, e1, e2]
      simp only [hk, hm, and_self, if_true]
      cases n.descendants.find? (fun d => decide (IsOperatorNew d)) with
      | some m => rfl
      | none =>
        cases n.descendants.find? (fun d => decide (IsFieldOf testedTypeNames d)) with
        | some f => rfl
        | none => rfl
    · simp [registerMatchers, Matcher.matches, hk, hm]
  · simp [registerMatchers, Matcher.matches, hk]

theorem check_noopnew (n m : Node) :
    check [("cls", n), ("noopnew", m)] = some [] := by
  simp [check, getNodeAs, List.lookup]

theorem check_eigen (n f : Node) (hn : n.kind = NodeKind.cxxRecordDecl)
    (hf : f.kind = NodeKind.fieldDecl) :
    check [("cls", n), ("eigen", f)] = some [diagAt n] := by
  simp [check, getNodeAs, List.lookup, hn, hf, diagAt]

/-- The visit of a node emits `report n` and does not fail. -/
theorem visit_eq (n : Node) : visit n = some (report n) := by
  unfold visit report Offending
  rw [registerMatchers_matches]
  by_cases hk : n.kind = NodeKind.cxxRecordDecl
  · by_cases hm : n.inMainFile = true
    · simp only [hk, hm, and_self, if_true, true_and]
      cases ho : n.descendants.find? (fun d => decide (IsOperatorNew d)) with
      | some m =>
        have hmem := List.mem_of_find?_eq_some ho
        have hp := List.find?_some ho
        have : ¬ ∀ x ∈ n.descendants, ¬ IsOperatorNew x :=
          fun h => h m hmem (of_decide_eq_true hp)
        simp only [check_noopnew, this, false_and, if_false]
      | none =>
        have hno : ∀ x ∈ n.descendants, ¬ IsOperatorNew x := by
          intro x hx
          have := List.find?_eq_none.mp ho x hx
          simpa using this
        cases hf : n.descendants.find? (fun d => decide (IsFieldOf testedTypeNames d)) with
        | some f =>
          have hmem := List.mem_of_find?_eq_some hf
          have hp0 := List.find?_some hf
          have hp : IsFieldOf testedTypeNames f := of_decide_eq_true hp0
          have hex : ∃ x ∈ n.descendants, IsFieldOf testedTypeNames x := ⟨f, hmem, hp⟩
          have hall : (∀ x ∈ n.descendants, ¬ IsOperatorNew x) ∧
              ∃ x ∈ n.descendants, IsFieldOf testedTypeNames x := ⟨hno, hex⟩
          rw [if_pos hall]
          exact check_eigen n f hk hp.1
        | none =>
          have hnex : ¬ ∃ x ∈ n.descendants, IsFieldOf testedTypeNames x := by
            rintro ⟨x, hx, hxp⟩
            have := List.find?_eq_none.mp hf x hx
            simp [hxp] at this
          simp only [hnex, and_false, if_false]
    · simp [hk, hm]
  · simp [hk]

/-- A run of visits does not fail and emits the reports of the nodes, in order. -/
theorem runVisits_eq (ns : List Node) : runVisits ns = some (ns.flatMap report) := by
  induction ns with
  | nil => rfl
  | cons n ns ih => simp [runVisits, visit_eq, ih]

theorem matchAST_eq (root : Node) : matchAST root = some (root.nodes.flatMap report) :=
  runVisits_eq root.nodes

theorem report_arg (n : Node) : ∀ d ∈ report n, d.arg = n.addr := by
  intro d hd
  unfold report at hd
  split at hd
  · simp only [List.mem_singleton] at hd
    rw [hd]; rfl
  · simp at hd

theorem filter_reports_of_not_mem (a : Nat) (ns : List Node)
    (h : a ∉ ns.map Node.addr) :
    (ns.flatMap report).filter (fun d => d.arg = a) = [] := by
  rw [List.filter_eq_nil_iff]
  intro d hd
  rw [List.mem_flatMap] at hd
  obtain ⟨n, hn, hdn⟩ := hd
  have := report_arg n d hdn
  intro hda
  apply h
  rw [List.mem_map]
  exact ⟨n, hn, by rw [← this]; simpa using hda⟩

theorem filter_report_self (n : Node) :
    (report n).filter (fun d => d.arg = n.addr) = report n := by
  rw [List.filter_eq_self]
  intro d hd
  simpa using report_arg n d hd

theorem filter_report_other (n : Node) (a : Nat) (h : n.addr ≠ a) :
    (report n).filter (fun d => d.arg = a) = [] := by
  rw [List.filter_eq_nil_iff]
  intro d hd
  have := report_arg n d hd
  simp [this, h]

/-- With distinct addresses, the diagnostics that report `D` are those of the
visit of `D`. -/
theorem filter_reports (D : Node) (ns : List Node) (hnd : (ns.map Node.addr).Nodup)
    (hD : D ∈ ns) :
    (ns.flatMap report).filter (fun d => d.arg = D.addr) = report D := by
  induction ns with
  | nil => simp at hD
  | cons n ns ih =>
    rw [List.map_cons, List.nodup_cons] at hnd
    rw [List.flatMap_cons, List.filter_append]
    rcases List.mem_cons.mp hD with h | h
    · subst h
      rw [filter_report_self, filter_reports_of_not_mem _ _ hnd.1, List.append_nil]
    · have hne : n.addr ≠ D.addr := by
        intro e
        apply hnd.1
        rw [e]
        exact List.mem_map_of_mem _ h
      rw [filter_report_other n _ hne, ih hnd.2 h, List.nil_append]

/-- The diagnostics of a whole run that report a node of the AST. -/
theorem diagnosticsFor_matchAST (root D : Node) (hnd : DistinctAddrs root)
    (hD : D ∈ root.nodes) :
    ∃ ds, matchAST root = some ds ∧ diagnosticsFor D ds = report D :=
  ⟨_, matchAST_eq root, filter_reports D root.nodes hnd hD⟩

theorem mem_descendantsList_of_mem (c : Node) (cs : List Node) (h : c ∈ cs) :
    c ∈ descendantsList cs := by
  induction cs with
  | nil => simp at h
  | cons a cs ih =>
    rw [descendantsList]
    rcases List.mem_cons.mp h with e | e
    · subst e; exact List.mem_cons_self _ _
    · exact List.mem_cons_of_mem _ (List.mem_append_right _ (ih e))

/-- A child is a descendant. -/
theorem mem_descendants_of_mem_children (n c : Node) (h : c ∈ n.children) :
    c ∈ n.descendants := by
  cases n with
  | mk a k s t l m cs =>
    rw [Node.descendants]
    exact mem_descendantsList_of_mem c cs h

/-- The sixteen matchers of lines 23-41 test the sixteen type names. -/
theorem enumerated_matchers :
    [eigenmxxfDecl, eigenmx3fDecl, eigenmx2fDecl, eigenmx4fDecl,
     eigenmx2dDecl, eigenmx3dDecl, eigenmx4dDecl, eigenmxxdDecl,
     eigenv2fDecl, eigenv3fDecl, eigenv4fDecl, eigenvxfDecl,
     eigenv2dDecl, eigenv3dDecl, eigenv4dDecl, eigenvxdDecl]
      = alignmentSensitiveTypeNames.map Matcher.hasTypeAsString := rfl

/-- The Binding Sets of the registered matcher: the record under `cls`, and
either the first `operator new` below it under `noopnew`, or, when there is
none, the first tested field below it under `eigen`. -/
theorem matches_cases (n : Node) (B : BoundNodes)
    (h : registerMatchers.matches n [] = some B) :
    n.kind = NodeKind.cxxRecordDecl ∧ n.inMainFile = true ∧
      ((∃ m ∈ n.descendants, IsOperatorNew m ∧ B = [("cls", n), ("noopnew", m)]) ∨
       (∃ f ∈ n.descendants, IsFieldOf testedTypeNames f ∧
          B = [("cls", n), ("eigen", f)])) := by
  rw [registerMatchers_matches] at h
  by_cases hc : n.kind = NodeKind.cxxRecordDecl ∧ n.inMainFile = true
  · rw [if_pos hc] at h
    refine ⟨hc.1, hc.2, ?_⟩
    cases ho : n.descendants.find? (fun d => decide (IsOperatorNew d)) with
    | some m =>
      rw [ho] at h
      have hp0 := List.find?_some ho
      exact Or.inl ⟨m, List.mem_of_find?_eq_some ho, of_decide_eq_true hp0,
        (Option.some.inj h).symm⟩
    | none =>
      rw [ho] at h
      cases hf : n.descendants.find? (fun d => decide (IsFieldOf testedTypeNames d)) with
      | some f =>
        rw [hf] at h
        have hp0 := List.find?_some hf
        exact Or.inr ⟨f, List.mem_of_find?_eq_some hf, of_decide_eq_true hp0,
          (Option.some.inj h).symm⟩
      | none =>
        rw [hf] at h
        exact absurd h (by simp)
  · rw [if_neg hc] at h
    exact absurd h (by simp)

theorem report_of_offending (D : Node) (h : Offending D) : report D = [diagAt D] := by
  unfold report; rw [if_pos h]

theorem report_of_not_offending (D : Node) (h : ¬ Offending D) : report D = [] := by
  unfold report; rw [if_neg h]

/-! ## Properties of the rule -/

/-- C1, as stated, fails: in
`struct Outer { Eigen::Matrix3f m; struct Inner { void *operator new(size_t); }; };`
the main-file declaration `Outer` has a field of a tested type among its own
members and no `operator new` among them, and the traversal emits nothing. -/
theorem c1_nested_operator_new_counterexample :
    DistinctAddrs nestedNewProgram ∧
    outerNestedNew ∈ nestedNewProgram.nodes ∧
    outerNestedNew.kind = NodeKind.cxxRecordDecl ∧
    outerNestedNew.inMainFile = true ∧
    (∃ f ∈ outerNestedNew.children, IsFieldOf testedTypeNames f) ∧
    (∀ m ∈ outerNestedNew.children, ¬ IsOperatorNew m) ∧
    matchAST nestedNewProgram = some [] ∧
    (matchAST nestedNewProgram).map (diagnosticsFor outerNestedNew)
      ≠ some [diagAt outerNestedNew] := by
  refine ⟨by decide, .tail _ (.head _), rfl, rfl, by decide, by decide, by decide, by decide⟩

/-- C1, amended: for every AST and every class/struct declaration `D` of the
main file, if `D`'s own members include a field of a type the registered
matcher tests and no method named `operator new` is declared anywhere below
`D`, nested declarations included, the traversal emits exactly one diagnostic
for `D`, at `D`'s location. -/
theorem c1_one_diagnostic_without_operator_new (root D : Node)
    (hnd : DistinctAddrs root) (hD : D ∈ root.nodes)
    (hk : D.kind = NodeKind.cxxRecordDecl) (hm : D.inMainFile = true)
    (hf : ∃ f ∈ D.children, IsFieldOf testedTypeNames f)
    (hno : ∀ x ∈ D.descendants, ¬ IsOperatorNew x) :
    (matchAST root).map (diagnosticsFor D)
      = some [⟨D.location, "class test----fail", D.addr⟩] := by
  obtain ⟨ds, hds, hfor⟩ := diagnosticsFor_matchAST root D hnd hD
  obtain ⟨f, hfc, hfp⟩ := hf
  have hoff : Offending D :=
    ⟨hk, hm, hno, f, mem_descendants_of_mem_children D f hfc, hfp⟩
  rw [hds, Option.map_some', hfor, report_of_offending D hoff]
  rfl

theorem c1_one_diagnostic_without_operator_new_witness :
    DistinctAddrs scenarioA ∧ structA ∈ scenarioA.nodes ∧
    (matchAST scenarioA).map (diagnosticsFor structA)
      = some [⟨10, "class test----fail", 1⟩] :=
  ⟨by decide, .tail _ (.head _),
    c1_one_diagnostic_without_operator_new scenarioA structA (by decide)
      (.tail _ (.head _)) rfl rfl (by decide) (by decide)⟩

/-- C2: for every AST and every class/struct declaration `D` whose own members
include a field of an alignment-sensitive type and a method named
`operator new`, the traversal emits no diagnostic for `D`. -/
theorem c2_no_diagnostic_with_operator_new (root D : Node)
    (hnd : DistinctAddrs root) (hD : D ∈ root.nodes)
    (_hk : D.kind = NodeKind.cxxRecordDecl)
    (_hf : ∃ f ∈ D.children, IsFieldOf alignmentSensitiveTypeNames f)
    (hnew : ∃ m ∈ D.children, IsOperatorNew m) :
    (matchAST root).map (diagnosticsFor D) = some [] := by
  obtain ⟨ds, hds, hfor⟩ := diagnosticsFor_matchAST root D hnd hD
  obtain ⟨m, hmc, hmp⟩ := hnew
  have hoff : ¬ Offending D := fun h =>
    h.2.2.1 m (mem_descendants_of_mem_children D m hmc) hmp
  rw [hds, Option.map_some', hfor, report_of_not_offending D hoff]

theorem c2_no_diagnostic_with_operator_new_witness :
    DistinctAddrs scenarioB ∧ structB ∈ scenarioB.nodes ∧
    (∃ f ∈ structB.children, IsFieldOf alignmentSensitiveTypeNames f) ∧
    (∃ m ∈ structB.children, IsOperatorNew m) ∧
    (matchAST scenarioB).map (diagnosticsFor structB) = some [] ∧
    matchAST scenarioB = some [] :=
  ⟨by decide, .tail _ (.head _), by decide, by decide,
    c2_no_diagnostic_with_operator_new scenarioB structB (by decide)
      (.tail _ (.head _)) rfl (by decide) (by decide),
    by decide⟩

/-- C3: for every AST and every class/struct declaration `D` with no field of
an alignment-sensitive type anywhere below it, nested scopes included, the
traversal emits no diagnostic for `D`, whatever methods `D` has. -/
theorem c3_no_diagnostic_without_unsafe_field (root D : Node)
    (hnd : DistinctAddrs root) (hD : D ∈ root.nodes)
    (_hk : D.kind = NodeKind.cxxRecordDecl)
    (hnone : ∀ x ∈ D.descendants, ¬ IsFieldOf alignmentSensitiveTypeNames x) :
    (matchAST root).map (diagnosticsFor D) = some [] := by
  obtain ⟨ds, hds, hfor⟩ := diagnosticsFor_matchAST root D hnd hD
  have hoff : ¬ Offending D := by
    rintro ⟨_, _, _, x, hx, hxk, hxt⟩
    refine hnone x hx ⟨hxk, ?_⟩
    unfold testedTypeNames at hxt
    unfold alignmentSensitiveTypeNames
    simp only [List.mem_cons, List.mem_singleton, List.not_mem_nil, or_false] at hxt
    rcases hxt with e | e <;> rw [e] <;> decide
  rw [hds, Option.map_some', hfor, report_of_not_offending D hoff]

theorem c3_no_diagnostic_without_unsafe_field_witness :
    DistinctAddrs scenarioC ∧ structC ∈ scenarioC.nodes ∧
    (∀ x ∈ structC.descendants, ¬ IsFieldOf alignmentSensitiveTypeNames x) ∧
    (matchAST scenarioC).map (diagnosticsFor structC) = some [] ∧
    matchAST scenarioC = some [] :=
  ⟨by decide, .tail _ (.head _), by decide,
    c3_no_diagnostic_without_unsafe_field scenarioC structC (by decide)
      (.tail _ (.head _)) rfl (by decide),
    by decide⟩

/-- C4: the code at `struct S { type m; };` for each of the sixteen enumerated
type names: the struct is reported for `Eigen::MatrixXf` and `Eigen::Matrix3f`
only; for `Eigen::Matrix4f`, Scenario A as the specification writes it, and
for the thirteen others the traversal emits nothing. -/
theorem c4_only_two_of_sixteen_reported :
    alignmentSensitiveTypeNames.filter
        (fun t => decide (matchAST (singleFieldProgram t)
          = some [⟨10, "class test----fail", 1⟩]))
      = ["Eigen::MatrixXf", "Eigen::Matrix3f"] ∧
    alignmentSensitiveTypeNames.filter
        (fun t => decide (matchAST (singleFieldProgram t) = some []))
      = ["Eigen::Matrix2f", "Eigen::Matrix4f",
         "Eigen::Matrix2d", "Eigen::Matrix3d", "Eigen::Matrix4d", "Eigen::MatrixXd",
         "Eigen::Vector2f", "Eigen::Vector3f", "Eigen::Vector4f", "Eigen::VectorXf",
         "Eigen::Vector2d", "Eigen::Vector3d", "Eigen::Vector4d", "Eigen::VectorXd"] ∧
    matchAST (singleFieldProgram "Eigen::Matrix4f") = some [] := by
  refine ⟨by decide, by decide, by decide⟩

/-- C5: for every AST and every node `D` of it, one traversal emits at most one
diagnostic for `D`, however many tested fields lie below `D`. -/
theorem c5_at_most_one_diagnostic (root D : Node)
    (hnd : DistinctAddrs root) (hD : D ∈ root.nodes) :
    ∃ ds, matchAST root = some ds ∧ (diagnosticsFor D ds).length ≤ 1 ∧
      ∀ d ∈ diagnosticsFor D ds, d.location = D.location := by
  obtain ⟨ds, hds, hfor⟩ := diagnosticsFor_matchAST root D hnd hD
  refine ⟨ds, hds, ?_, ?_⟩
  · rw [hfor]; unfold report; split <;> simp
  · rw [hfor]; unfold report; split
    · intro d hd
      rw [List.mem_singleton] at hd
      rw [hd]; rfl
    · intro d hd; simp at hd

theorem c5_at_most_one_diagnostic_witness :
    DistinctAddrs manyFieldsProgram ∧ structManyFields ∈ manyFieldsProgram.nodes ∧
    ∃ ds, matchAST manyFieldsProgram = some ds ∧
      (diagnosticsFor structManyFields ds).length ≤ 1 ∧
      ∀ d ∈ diagnosticsFor structManyFields ds, d.location = structManyFields.location :=
  ⟨by decide, .tail _ (.head _),
    c5_at_most_one_diagnostic manyFieldsProgram structManyFields (by decide)
      (.tail _ (.head _))⟩

/-- C6, as stated, fails: on
`struct Outer { struct Inner { Eigen::Matrix3f m; }; };` the traversal emits
two diagnostics, one for `Outer` and one for `Inner`, not a single one. -/
theorem c6_scenario_d_counterexample :
    matchAST (scenarioD "Eigen::Matrix3f")
      = some [⟨10, "class test----fail", 1⟩, ⟨20, "class test----fail", 2⟩] ∧
    ¬ ∃ d, matchAST (scenarioD "Eigen::Matrix3f") = some [d] := by
  have h : matchAST (scenarioD "Eigen::Matrix3f")
      = some [⟨10, "class test----fail", 1⟩, ⟨20, "class test----fail", 2⟩] := by decide
  refine ⟨h, ?_⟩
  rintro ⟨d, hd⟩
  rw [h] at hd
  simp at hd

/-- C6, amended: on `struct Outer { struct Inner { T m; }; };` with `T` a type
the registered matcher tests and no `operator new`, the traversal emits two
diagnostics, the first for `Outer` at `Outer`'s location, the second for
`Inner` at `Inner`'s location. -/
theorem c6_scenario_d_two_diagnostics (T : String) (hT : T ∈ testedTypeNames) :
    matchAST (scenarioD T) = some [diagAt (outerD T), diagAt (innerD T)] ∧
    diagAt (outerD T) = ⟨10, "class test----fail", 1⟩ ∧
    diagAt (innerD T) = ⟨20, "class test----fail", 2⟩ := by
  unfold testedTypeNames at hT
  simp only [List.mem_cons, List.mem_singleton, List.not_mem_nil, or_false] at hT
  rcases hT with e | e <;> subst e <;> exact ⟨by decide, rfl, rfl⟩

theorem c6_scenario_d_two_diagnostics_witness :
    "Eigen::MatrixXf" ∈ testedTypeNames ∧
    matchAST (scenarioD "Eigen::MatrixXf")
      = some [diagAt (outerD "Eigen::MatrixXf"), diagAt (innerD "Eigen::MatrixXf")] ∧
    diagAt (outerD "Eigen::MatrixXf") = ⟨10, "class test----fail", 1⟩ ∧
    diagAt (innerD "Eigen::MatrixXf") = ⟨20, "class test----fail", 2⟩ :=
  ⟨by decide, c6_scenario_d_two_diagnostics "Eigen::MatrixXf" (by decide)⟩

/-- C7, as stated, fails: on `struct S { Eigen::Matrix3f m; };` the match of
`S` captures `cls` and `eigen` and not `noopnew`; `check` asks for `noopnew`,
gets a null pointer, and goes on with it to emit the diagnostic instead of
failing. -/
theorem c7_null_lookup_counterexample :
    registerMatchers.matches structA []
      = some [("cls", structA), ("eigen", field 2 "Eigen::Matrix3f" 20)] ∧
    List.lookup "noopnew" [("cls", structA), ("eigen", field 2 "Eigen::Matrix3f" 20)]
      = none ∧
    getNodeAs NodeKind.cxxMethodDecl
      [("cls", structA), ("eigen", field 2 "Eigen::Matrix3f" 20)] "noopnew" = none ∧
    check [("cls", structA), ("eigen", field 2 "Eigen::Matrix3f" 20)]
      = some [⟨10, "class test----fail", 1⟩] ∧
    check [("cls", structA), ("eigen", field 2 "Eigen::Matrix3f" 20)] ≠ none := by
  refine ⟨rfl, rfl, rfl, by decide, by decide⟩

/-- C7, amended: on every Binding Set the registered matcher produces, asking
for a name the match did not capture yields a null pointer, whatever the node
class asked for, and `check` goes on with it and returns without failing; one
of `noopnew` and `eigen` is such a name each time, and `cls` never is. -/
theorem c7_uncaptured_name_yields_null (n : Node) (B : BoundNodes)
    (h : registerMatchers.matches n [] = some B) :
    (∀ ID T, List.lookup ID B = none → getNodeAs T B ID = none) ∧
    (List.lookup "noopnew" B = none ∨ List.lookup "eigen" B = none) ∧
    List.lookup "cls" B ≠ none ∧
    ∃ ds, check B = some ds := by
  obtain ⟨hk, _, hB | hB⟩ := matches_cases n B h
  · obtain ⟨m, _, _, rfl⟩ := hB
    refine ⟨?_, Or.inr rfl, by simp [List.lookup], ⟨[], check_noopnew n m⟩⟩
    intro ID T hID
    unfold getNodeAs; rw [hID]
  · obtain ⟨f, _, hf, rfl⟩ := hB
    refine ⟨?_, Or.inl rfl, by simp [List.lookup], ⟨_, check_eigen n f hk hf.1⟩⟩
    intro ID T hID
    unfold getNodeAs; rw [hID]

theorem c7_uncaptured_name_yields_null_witness :
    registerMatchers.matches structB []
      = some [("cls", structB), ("noopnew", methodNew 3 30)] ∧
    (∀ ID T, List.lookup ID [("cls", structB), ("noopnew", methodNew 3 30)] = none →
      getNodeAs T [("cls", structB), ("noopnew", methodNew 3 30)] ID = none) ∧
    (List.lookup "noopnew" [("cls", structB), ("noopnew", methodNew 3 30)] = none ∨
      List.lookup "eigen" [("cls", structB), ("noopnew", methodNew 3 30)] = none) ∧
    List.lookup "cls" [("cls", structB), ("noopnew", methodNew 3 30)] ≠ none ∧
    ∃ ds, check [("cls", structB), ("noopnew", methodNew 3 30)] = some ds :=
  ⟨rfl, c7_uncaptured_name_yields_null structB _ rfl⟩

/-- C8: for every AST and every class/struct declaration `D` of it, the
traversal emits a diagnostic for `D` at `D`'s location if and only if `D` is in
the main file, no proper descendant of `D` is a method named `operator new`,
and some proper descendant of `D` is a field whose type string is
`Eigen::MatrixXf` or `Eigen::Matrix3f`. -/
theorem c8_exact_characterisation (root D : Node)
    (hnd : DistinctAddrs root) (hD : D ∈ root.nodes)
    (hk : D.kind = NodeKind.cxxRecordDecl) :
    ∃ ds, matchAST root = some ds ∧
      ((∃ d ∈ ds, d.arg = D.addr ∧ d.location = D.location) ↔
        (D.inMainFile = true ∧
          (∀ x ∈ D.descendants,
            ¬ (x.kind = NodeKind.cxxMethodDecl ∧ x.name = "operator new")) ∧
          (∃ x ∈ D.descendants, x.kind = NodeKind.fieldDecl ∧
            (x.type = "Eigen::MatrixXf" ∨ x.type = "Eigen::Matrix3f")))) := by
  obtain ⟨ds, hds, hfor⟩ := diagnosticsFor_matchAST root D hnd hD
  refine ⟨ds, hds, ?_⟩
  have hoff : Offending D ↔ (D.inMainFile = true ∧
      (∀ x ∈ D.descendants,
        ¬ (x.kind = NodeKind.cxxMethodDecl ∧ x.name = "operator new")) ∧
      (∃ x ∈ D.descendants, x.kind = NodeKind.fieldDecl ∧
        (x.type = "Eigen::MatrixXf" ∨ x.type = "Eigen::Matrix3f"))) := by
    unfold Offending IsOperatorNew IsFieldOf testedTypeNames
    simp only [hk, true_and, List.mem_cons, List.mem_singleton, List.not_mem_nil, or_false]
  rw [← hoff]
  constructor
  · rintro ⟨d, hd, harg, _⟩
    have hmem : d ∈ diagnosticsFor D ds := by
      unfold diagnosticsFor
      rw [List.mem_filter]
      exact ⟨hd, by simpa using harg⟩
    rw [hfor] at hmem
    by_contra hn
    rw [report_of_not_offending D hn] at hmem
    simp at hmem
  · intro ho
    have hmem : diagAt D ∈ diagnosticsFor D ds := by
      rw [hfor, report_of_offending D ho]
      exact List.mem_singleton_self _
    unfold diagnosticsFor at hmem
    rw [List.mem_filter] at hmem
    exact ⟨diagAt D, hmem.1, rfl, rfl⟩

theorem c8_exact_characterisation_witness :
    DistinctAddrs nestedNewProgram ∧ outerNestedNew ∈ nestedNewProgram.nodes ∧
    ∃ ds, matchAST nestedNewProgram = some ds ∧
      ((∃ d ∈ ds, d.arg = outerNestedNew.addr ∧ d.location = outerNestedNew.location) ↔
        (outerNestedNew.inMainFile = true ∧
          (∀ x ∈ outerNestedNew.descendants,
            ¬ (x.kind = NodeKind.cxxMethodDecl ∧ x.name = "operator new")) ∧
          (∃ x ∈ outerNestedNew.descendants, x.kind = NodeKind.fieldDecl ∧
            (x.type = "Eigen::MatrixXf" ∨ x.type = "Eigen::Matrix3f")))) :=
  ⟨by decide, .tail _ (.head _),
    c8_exact_characterisation nestedNewProgram outerNestedNew (by decide)
      (.tail _ (.head _)) rfl⟩

/-- C9: in every Binding Set a successful match of the registered matcher hands
to `check`, exactly one of `noopnew` and `eigen` is bound, and the condition
`eigenDecl && !opnewDecl` of `check` has the value of `eigenDecl` alone. -/
theorem c9_exactly_one_bound (n : Node) (B : BoundNodes)
    (h : registerMatchers.matches n [] = some B) :
    ((List.lookup "noopnew" B).isSome = true ∧ (List.lookup "eigen" B).isSome = false ∨
      (List.lookup "noopnew" B).isSome = false ∧ (List.lookup "eigen" B).isSome = true) ∧
    ((getNodeAs NodeKind.fieldDecl B "eigen").isSome
        && !(getNodeAs NodeKind.cxxMethodDecl B "noopnew").isSome)
      = (getNodeAs NodeKind.fieldDecl B "eigen").isSome := by
  obtain ⟨_, _, hB | hB⟩ := matches_cases n B h
  · obtain ⟨m, _, hm, rfl⟩ := hB
    exact ⟨Or.inl ⟨rfl, rfl⟩, by simp [getNodeAs, List.lookup]⟩
  · obtain ⟨f, _, hf, rfl⟩ := hB
    exact ⟨Or.inr ⟨rfl, rfl⟩, by simp [getNodeAs, List.lookup]⟩

theorem c9_exactly_one_bound_witness :
    registerMatchers.matches structB []
      = some [("cls", structB), ("noopnew", methodNew 3 30)] ∧
    ((List.lookup "noopnew" [("cls", structB), ("noopnew", methodNew 3 30)]).isSome = true ∧
        (List.lookup "eigen" [("cls", structB), ("noopnew", methodNew 3 30)]).isSome = false ∨
      (List.lookup "noopnew" [("cls", structB), ("noopnew", methodNew 3 30)]).isSome = false ∧
        (List.lookup "eigen" [("cls", structB), ("noopnew", methodNew 3 30)]).isSome = true) ∧
    ((getNodeAs NodeKind.fieldDecl
          [("cls", structB), ("noopnew", methodNew 3 30)] "eigen").isSome
        && !(getNodeAs NodeKind.cxxMethodDecl
          [("cls", structB), ("noopnew", methodNew 3 30)] "noopnew").isSome)
      = (getNodeAs NodeKind.fieldDecl
          [("cls", structB), ("noopnew", methodNew 3 30)] "eigen").isSome :=
  ⟨rfl, c9_exactly_one_bound structB _ rfl⟩

/-- C10: in every Binding Set a successful match of the registered matcher
produces at a node, `cls` is bound to that node, a record declaration, so the
lookup of `cls` in `check` is not null and `check` does not dereference a null
pointer; and a field bound under `eigen` is a proper descendant of that node. -/
theorem c10_cls_bound_to_matched_record (n : Node) (B : BoundNodes)
    (h : registerMatchers.matches n [] = some B) :
    getNodeAs NodeKind.cxxRecordDecl B "cls" = some n ∧
    (∃ ds, check B = some ds) ∧
    (∀ f, getNodeAs NodeKind.fieldDecl B "eigen" = some f →
      f ∈ n.descendants ∧ check B = some [⟨n.location, "class test----fail", n.addr⟩]) := by
  obtain ⟨hk, _, hB | hB⟩ := matches_cases n B h
  · obtain ⟨m, _, hm, rfl⟩ := hB
    refine ⟨by simp [getNodeAs, List.lookup, hk], ⟨[], check_noopnew n m⟩, ?_⟩
    intro f hf
    simp [getNodeAs, List.lookup] at hf
  · obtain ⟨f, hfd, hf, rfl⟩ := hB
    refine ⟨by simp [getNodeAs, List.lookup, hk], ⟨_, check_eigen n f hk hf.1⟩, ?_⟩
    intro g hg
    have hgf : g = f := by
      simp [getNodeAs, List.lookup, hf.1] at hg
      exact hg.symm
    subst hgf
    exact ⟨hfd, check_eigen n g hk hf.1⟩

theorem c10_cls_bound_to_matched_record_witness :
    registerMatchers.matches structA []
      = some [("cls", structA), ("eigen", field 2 "Eigen::Matrix3f" 20)] ∧
    getNodeAs NodeKind.cxxRecordDecl
      [("cls", structA), ("eigen", field 2 "Eigen::Matrix3f" 20)] "cls" = some structA ∧
    (∃ ds, check [("cls", structA), ("eigen", field 2 "Eigen::Matrix3f" 20)] = some ds) ∧
    (∀ f, getNodeAs NodeKind.fieldDecl
        [("cls", structA), ("eigen", field 2 "Eigen::Matrix3f" 20)] "eigen" = some f →
      f ∈ structA.descendants ∧
        check [("cls", structA), ("eigen", field 2 "Eigen::Matrix3f" 20)]
          = some [⟨structA.location, "class test----fail", structA.addr⟩]) :=
  ⟨rfl, c10_cls_bound_to_matched_record structA _ rfl⟩

end EigenHasOperatorNew
